import Mathlib

/-!
Verification of the seastar io_uring ring protocol and the gate /
abort_source cancellation primitives, as a shallow embedding of
`src/include/seastar/core/linux-io-uring.hh`,
`src/src/core/linux-io-uring.cc`, `src/core/gate.hh`, the abort-source
header and the `sleep_abortable` composition.

Machine integers are modelled as `Nat` with explicit reduction modulo
`2^32` (`uint32_t` cursors) or `2^64` (`size_t` counters).  Code that
throws is modelled with an explicit `thrown` flag or an `Option` result;
code whose behaviour is undefined (a failed `assert`, a dereference of a
disengaged `optional`) is modelled as `none`.
-/

namespace Seastar

/-- Modulus of `uint32_t` arithmetic: ring cursors wrap at `2^32`. -/
def U32 : Nat := 4294967296

/-- `uint32_t` subtraction `a - b`, for operands below `U32`. -/
def usub (a b : Nat) : Nat := (a + U32 - b % U32) % U32

/-- Submission-queue state, from `struct io_uring_sq` (linux-io-uring.hh):
kernel-owned `head`, user-published `tail`, capacity field `ring_size`,
`ring_mask`, the `index_array` indirection ring, the software cursors
`sqe_head`/`sqe_tail` into the `sqes` array, and the recovery `pending`
flag.  Cursor fields hold `uint32_t` values (naturals below `U32`). -/
structure IoUringSq where
  head : Nat
  tail : Nat
  ring_size : Nat
  ring_mask : Nat
  index_array : Nat → Nat
  sqe_head : Nat
  sqe_tail : Nat
  pending : Bool

/-- `io_uring_get_sqe` (linux-io-uring.hh): computes `next = sqe_tail + 1`;
if `next - sqe_head > ring_size` (all in `uint32_t` arithmetic) returns
`nullptr` and leaves the state alone, else returns the slot index
`sqe_tail & ring_mask` and advances `sqe_tail` to `next`. -/
def io_uring_get_sqe (s : IoUringSq) : Option Nat × IoUringSq :=
  let next := (s.sqe_tail + 1) % U32
  if usub next s.sqe_head > s.ring_size then
    (none, s)
  else
    (some (Nat.land s.sqe_tail s.ring_mask), { s with sqe_tail := next })

/-- State after `n` consecutive `io_uring_get_sqe` calls. -/
def acquireIter (s : IoUringSq) : Nat → IoUringSq
  | 0 => s
  | n + 1 => (io_uring_get_sqe (acquireIter s n)).2

theorem acquireIter_fresh (s : IoUringSq) (h0 : s.sqe_head = 0)
    (ht : s.sqe_tail = 0) (hcap : s.ring_size + 1 < U32) :
    ∀ k, k ≤ s.ring_size → acquireIter s k = { s with sqe_tail := k } := by
  intro k
  induction k with
  | zero =>
    intro _
    simp [acquireIter, ← ht]
  | succ n ih =>
    intro hn
    have hs : acquireIter s n = { s with sqe_tail := n } := ih (by omega)
    show (io_uring_get_sqe (acquireIter s n)).2 = _
    rw [hs]
    have hW : U32 = 4294967296 := rfl
    have hnext : (n + 1) % U32 = n + 1 := Nat.mod_eq_of_lt (by omega)
    have husub : usub ((n + 1) % U32) 0 = n + 1 := by
      simp only [usub, U32] at *
      omega
    simp only [io_uring_get_sqe, h0, husub]
    rw [if_neg (by omega)]
    simp [hnext]

/-- C1: with `capacity` read off the descriptor's `ring_size` field,
`io_uring_get_sqe` returns a non-null slot exactly when
`sqe_tail - sqe_head < ring_size` (in `uint32_t` arithmetic), and on a
freshly initialized ring (`sqe_head = sqe_tail = 0`, as set by
`io_uring_queue_mmap`) each of the first `ring_size` consecutive calls
succeeds while the `(ring_size + 1)`-th returns null. -/
theorem io_uring_get_sqe_capacity (s : IoUringSq)
    (hh : s.sqe_head < U32) (htl : s.sqe_tail < U32)
    (hcap : s.ring_size + 1 < U32)
    (hgap : usub s.sqe_tail s.sqe_head ≤ s.ring_size) :
    ((io_uring_get_sqe s).1.isSome ↔ usub s.sqe_tail s.sqe_head < s.ring_size)
    ∧ (s.sqe_head = 0 → s.sqe_tail = 0 →
        (∀ k, k < s.ring_size → (io_uring_get_sqe (acquireIter s k)).1.isSome)
        ∧ (io_uring_get_sqe (acquireIter s s.ring_size)).1 = none) := by
  have hW : U32 = 4294967296 := rfl
  constructor
  · -- the gap g = sqe_tail - sqe_head satisfies g ≤ ring_size < U32 - 1,
    -- so (g + 1) mod U32 = g + 1 and the branch test decides g < ring_size
    have hg : usub ((s.sqe_tail + 1) % U32) s.sqe_head
        = usub s.sqe_tail s.sqe_head + 1 := by
      simp only [usub, hW] at *
      omega
    simp only [io_uring_get_sqe, hg]
    by_cases hc : usub s.sqe_tail s.sqe_head + 1 > s.ring_size
    · rw [if_pos hc]
      simp only [Option.isSome_none, Bool.false_eq_true, false_iff, not_lt]
      omega
    · rw [if_neg hc]
      simp only [Option.isSome_some, true_iff]
      omega
  · intro h0 ht
    constructor
    · intro k hk
      rw [acquireIter_fresh s h0 ht hcap k (by omega)]
      have husub : usub ((k + 1) % U32) 0 = k + 1 := by
        simp only [usub, hW] at *
        omega
      simp only [io_uring_get_sqe, h0, husub]
      rw [if_neg (by omega)]
      simp
    · rw [acquireIter_fresh s h0 ht hcap s.ring_size (by omega)]
      have husub : usub ((s.ring_size + 1) % U32) 0 = s.ring_size + 1 := by
        simp only [usub, hW] at *
        omega
      simp only [io_uring_get_sqe, h0, husub]
      rw [if_pos (by omega)]

/-- Witness for C1 at a concrete ring of capacity 4. -/
theorem io_uring_get_sqe_capacity_witness :
    ((io_uring_get_sqe
        { head := 0, tail := 0, ring_size := 4, ring_mask := 3,
          index_array := fun _ => 0, sqe_head := 0, sqe_tail := 0,
          pending := false }).1.isSome
      ↔ usub 0 0 < 4)
    ∧ (io_uring_get_sqe (acquireIter
        { head := 0, tail := 0, ring_size := 4, ring_mask := 3,
          index_array := fun _ => 0, sqe_head := 0, sqe_tail := 0,
          pending := false } 4)).1 = none := by
  have h := io_uring_get_sqe_capacity
    { head := 0, tail := 0, ring_size := 4, ring_mask := 3,
      index_array := fun _ => 0, sqe_head := 0, sqe_tail := 0,
      pending := false }
    (by decide) (by decide) (by decide) (by decide)
  exact ⟨h.1, (h.2 rfl rfl).2⟩

/-- `do_io_uring_enter` (linux-io-uring.cc): issues the enter syscall with
`submitted` to-submit entries; `ret` is the syscall's return value.  On a
negative return it sets `sq.pending` and throws `std::system_error`; on a
non-negative return it clears `sq.pending`.  Result: new state plus
whether the error was thrown. -/
def do_io_uring_enter (s : IoUringSq) (ret : Int) : IoUringSq × Bool :=
  if ret < 0 then ({ s with pending := true }, true)
  else ({ s with pending := false }, false)

/-- The `while (sq.sqe_head < sq.sqe_tail)` loop of `io_uring_submit`:
stores `sqe_head & mask` into `index_array[tail_next & mask]`, then
increments `sqe_head` and `tail_next` (the latter in `uint32_t`
arithmetic).  Returns the updated index array, `sqe_head`, and
`tail_next`. -/
def publishLoop (idx : Nat → Nat) (mask : Nat) (sqe_head sqe_tail tail_next : Nat) :
    (Nat → Nat) × Nat × Nat :=
  if h : sqe_head < sqe_tail then
    publishLoop
      (fun p => if p = Nat.land tail_next mask then Nat.land sqe_head mask else idx p)
      mask (sqe_head + 1) sqe_tail ((tail_next + 1) % U32)
  else
    (idx, sqe_head, tail_next)
termination_by sqe_tail - sqe_head
decreasing_by omega

/-- Outcome of one `io_uring_submit` call: the ring state on return (or at
the point the exception propagates), whether a `SystemError` escaped, and
the value the call returns to its caller — `none` when no value is
produced (the exception path, and the recovery path's bare `return;`). -/
structure SubmitOut where
  state : IoUringSq
  thrown : Bool
  retval : Option Nat

/-- Normal path of `io_uring_submit`: walks the software-filled slots with
`publishLoop`, computes `submitted = tail_next - tail` in `uint32_t`
arithmetic, publishes the new tail and calls `do_io_uring_enter` when
`submitted` is non-zero, and returns `submitted`.  `ret` gives the enter
syscall's return value as a function of its to-submit argument. -/
def io_uring_submit_normal (s : IoUringSq) (ret : Nat → Int) : SubmitOut :=
  let r := publishLoop s.index_array s.ring_mask s.sqe_head s.sqe_tail s.tail
  let submitted := usub r.2.2 s.tail
  let s1 : IoUringSq := { s with index_array := r.1, sqe_head := r.2.1 }
  if submitted ≠ 0 then
    let e := do_io_uring_enter { s1 with tail := r.2.2 } (ret submitted)
    { state := e.1, thrown := e.2,
      retval := if e.2 then none else some submitted }
  else
    { state := s1, thrown := false, retval := some submitted }

/-- `io_uring_submit` (linux-io-uring.cc): if `sq.pending` is set and
`tail - head` (acquire load of the kernel head) is non-zero, re-issues
`do_io_uring_enter` for that count and exits the function with a bare
`return;` — no value is produced on that path (`retval = none`).  If
`pending` is set but nothing is unconsumed, clears `pending` and falls
through to the normal path. -/
def io_uring_submit (s : IoUringSq) (ret : Nat → Int) : SubmitOut :=
  if s.pending then
    let submitted := usub s.tail s.head
    if submitted ≠ 0 then
      let e := do_io_uring_enter s (ret submitted)
      { state := e.1, thrown := e.2, retval := none }
    else
      io_uring_submit_normal { s with pending := false } ret
  else
    io_uring_submit_normal s ret

/-- C3: on a negative enter return, `do_io_uring_enter` sets the ring's
`pending` flag and throws `SystemError`; and on the next `io_uring_submit`
call, if `pending` is set and unconsumed published entries remain
(`tail - head ≠ 0`), the call re-issues `do_io_uring_enter` for exactly
that unconsumed count and touches neither the index-indirection array,
the software cursors `sqe_head`/`sqe_tail`, nor the published tail. -/
theorem io_uring_submit_recovery (s : IoUringSq) (ret : Nat → Int)
    (hp : s.pending = true) (hu : usub s.tail s.head ≠ 0) :
    (∀ r : Int, r < 0 →
      (do_io_uring_enter s r).1.pending = true ∧ (do_io_uring_enter s r).2 = true)
    ∧ io_uring_submit s ret =
        { state := (do_io_uring_enter s (ret (usub s.tail s.head))).1,
          thrown := (do_io_uring_enter s (ret (usub s.tail s.head))).2,
          retval := none }
    ∧ (io_uring_submit s ret).state.index_array = s.index_array
    ∧ (io_uring_submit s ret).state.sqe_head = s.sqe_head
    ∧ (io_uring_submit s ret).state.sqe_tail = s.sqe_tail
    ∧ (io_uring_submit s ret).state.tail = s.tail := by
  refine ⟨?_, ?_, ?_, ?_, ?_, ?_⟩
  · intro r hr
    simp [do_io_uring_enter, hr]
  all_goals
    by_cases hr : ret (usub s.tail s.head) < 0 <;>
      simp [io_uring_submit, do_io_uring_enter, hp, hu, hr]

/-- Witness for C3 at a concrete pending ring with one unconsumed entry
and a failing enter call. -/
theorem io_uring_submit_recovery_witness :
    ((-1 : Int) < 0 →
      (do_io_uring_enter
        { head := 0, tail := 1, ring_size := 4, ring_mask := 3,
          index_array := fun _ => 0, sqe_head := 1, sqe_tail := 1,
          pending := true } (-1)).1.pending = true)
    ∧ (io_uring_submit
        { head := 0, tail := 1, ring_size := 4, ring_mask := 3,
          index_array := fun _ => 0, sqe_head := 1, sqe_tail := 1,
          pending := true } (fun _ => -1)).state.tail = 1 := by
  have h := io_uring_submit_recovery
    { head := 0, tail := 1, ring_size := 4, ring_mask := 3,
      index_array := fun _ => 0, sqe_head := 1, sqe_tail := 1,
      pending := true }
    (fun _ => -1) rfl (by decide)
  exact ⟨fun hr => (h.1 (-1) hr).1, h.2.2.2.2.2⟩

/-- C2 (code bug): on the recovery path — `sq.pending` set, one entry
still unconsumed by the kernel (`tail - head = 1`), enter succeeding —
`io_uring_submit` exits through a bare `return;` although the function's
return type is `unsigned` and its header documents it as returning the
number of submitted SQEs; no return value is produced (`retval = none`).
The normal path, in contrast, does return a value. -/
theorem io_uring_submit_recovery_no_return_value :
    (io_uring_submit
      { head := 0, tail := 1, ring_size := 4, ring_mask := 3,
        index_array := fun _ => 0, sqe_head := 1, sqe_tail := 1,
        pending := true } (fun _ => 0)).retval = none
    ∧ (io_uring_submit
      { head := 0, tail := 1, ring_size := 4, ring_mask := 3,
        index_array := fun _ => 0, sqe_head := 1, sqe_tail := 1,
        pending := true } (fun _ => 0)).thrown = false
    ∧ usub 1 0 = 1
    ∧ (io_uring_submit
      { head := 0, tail := 0, ring_size := 4, ring_mask := 3,
        index_array := fun _ => 0, sqe_head := 0, sqe_tail := 1,
        pending := false } (fun _ => 0)).retval = some 1 := by
  refine ⟨rfl, rfl, by decide, ?_⟩
  have h1 : usub 1 0 = 1 := by decide
  simp [io_uring_submit, io_uring_submit_normal, publishLoop, do_io_uring_enter,
    h1, usub, U32]

/-- Which of the three mmapped regions (SQ ring metadata, SQE array,
CQ ring) are currently mapped. -/
structure MappedRegions where
  sq_ring : Bool
  sqes : Bool
  cq_ring : Bool
deriving DecidableEq

/-- Success/failure of each of the three `mmap` calls made by
`io_uring_queue_mmap`, in program order. -/
structure MmapEnv where
  sq_ring_ok : Bool
  sqes_ok : Bool
  cq_ring_ok : Bool
deriving DecidableEq

/-- The fields of `struct io_uring` relevant to initialization: the raw
kernel handle.  (`io_uring_queue_init` receives the ring by reference;
whatever is not assigned keeps its prior value.) -/
structure InitRing where
  ring_fd : Int
deriving DecidableEq

/-- Result of ring initialization: whether a `SystemError` escaped, the
regions still mapped when control leaves the function, and the ring
object as left behind. -/
structure InitOut where
  thrown : Bool
  mapped : MappedRegions
  ring : InitRing
deriving DecidableEq

/-- Body of the `defer`-registered cleanup `unmap_sq_ring`. -/
def unmap_sq_ring (m : MappedRegions) : MappedRegions :=
  { m with sq_ring := false }

/-- Body of the `defer`-registered cleanup `unmap_sqes`. -/
def unmap_sqes (m : MappedRegions) : MappedRegions :=
  { m with sqes := false }

/-- `io_uring_queue_mmap` (linux-io-uring.cc): maps the SQ ring, then the
SQE array, then the CQ ring, checking each `mmap` result with
`throw_system_error_on`.  After the first two successes a `defer`
(`unmap_sq_ring`, `unmap_sqes`) is armed; the deferred unmaps run, most
recent first, on the exception paths and are both cancelled on success.
`ring.ring_fd` is never assigned anywhere in this function. -/
def io_uring_queue_mmap (ring : InitRing) (env : MmapEnv) : InitOut :=
  if !env.sq_ring_ok then
    -- first mmap failed: throw with nothing mapped
    { thrown := true,
      mapped := { sq_ring := false, sqes := false, cq_ring := false },
      ring := ring }
  else
    let m1 : MappedRegions := { sq_ring := true, sqes := false, cq_ring := false }
    -- defer unmap_sq_ring armed; sq cursor pointers populated
    if !env.sqes_ok then
      { thrown := true, mapped := unmap_sq_ring m1, ring := ring }
    else
      let m2 : MappedRegions := { m1 with sqes := true }
      -- defer unmap_sqes armed; sqe_head/sqe_tail/pending initialised
      if !env.cq_ring_ok then
        { thrown := true, mapped := unmap_sq_ring (unmap_sqes m2), ring := ring }
      else
        let m3 : MappedRegions := { m2 with cq_ring := true }
        -- unmap_sq_ring.cancel(); unmap_sqes.cancel()
        { thrown := false, mapped := m3, ring := ring }

/-- `io_uring_queue_init` (linux-io-uring.cc): asserts that SQPOLL is not
requested, issues `io_uring_setup`, throws `SystemError` when the
returned fd is negative, and otherwise calls `io_uring_queue_mmap`.  The
setup fd is passed to the mmap calls but is never stored into
`ring.ring_fd`. -/
def io_uring_queue_init (ring : InitRing) (setup_fd : Int) (env : MmapEnv) : InitOut :=
  if setup_fd < 0 then
    { thrown := true,
      mapped := { sq_ring := false, sqes := false, cq_ring := false },
      ring := ring }
  else
    io_uring_queue_mmap ring env

/-- C9: ring initialization is all-or-nothing for the memory mappings:
whenever `io_uring_queue_init` fails (setup or any of the three mmaps),
every region mapped before the failure is unmapped before the error
propagates and nothing remains mapped; on success all three regions
remain mapped. -/
theorem io_uring_queue_init_all_or_nothing (ring : InitRing) (fd : Int)
    (env : MmapEnv) :
    (io_uring_queue_init ring fd env).mapped =
      (if (io_uring_queue_init ring fd env).thrown then
        { sq_ring := false, sqes := false, cq_ring := false }
      else
        { sq_ring := true, sqes := true, cq_ring := true }) := by
  rcases env with ⟨⟨⟩ | ⟨⟩, ⟨⟩ | ⟨⟩, ⟨⟩ | ⟨⟩⟩ <;>
    by_cases hfd : fd < 0 <;>
      simp [io_uring_queue_init, io_uring_queue_mmap, unmap_sq_ring, unmap_sqes, hfd]

/-- C10 (code bug): a successful `io_uring_queue_init` leaves
`ring.ring_fd` untouched — here the setup syscall returns fd `5` on a
ring whose `ring_fd` field held `0`, initialization succeeds, and
`ring_fd` still holds `0`, not the setup fd — although
`do_io_uring_enter` and `io_uring_queue_exit` subsequently use
`ring.ring_fd` as the kernel handle. -/
theorem io_uring_queue_init_drops_setup_fd :
    (io_uring_queue_init { ring_fd := 0 } 5
      { sq_ring_ok := true, sqes_ok := true, cq_ring_ok := true }).thrown = false
    ∧ (io_uring_queue_init { ring_fd := 0 } 5
      { sq_ring_ok := true, sqes_ok := true, cq_ring_ok := true }).ring.ring_fd = 0
    ∧ (0 : Int) ≠ 5 := by
  refine ⟨rfl, rfl, by decide⟩

/-- Modulus of `size_t` arithmetic for the gate's request counter. -/
def U64 : Nat := 18446744073709551616

/-- `seastar::gate` state (gate.hh): the in-flight counter `_count`
(a `size_t`), `_stopped` (`none` while close has not been requested;
`some r` afterwards, with `r` recording whether the drain promise has
been resolved by `set_value`), and the `_to_signal` intrusive list of
registered close-listener ids. -/
structure Gate where
  count : Nat
  stopped : Option Bool
  to_signal : List Nat

/-- `gate::enter`: throws `gate_closed_exception` when `_stopped` is
engaged, else increments `_count`.  Result: (thrown, new state). -/
def Gate.enter (g : Gate) : Bool × Gate :=
  if g.stopped.isSome then (true, g)
  else (false, { g with count := (g.count + 1) % U64 })

/-- `gate::leave`: decrements `_count` (in `size_t` arithmetic) and, when
the counter reaches zero with `_stopped` engaged, resolves the drain
promise with `set_value`. -/
def Gate.leave (g : Gate) : Gate :=
  let c := (g.count + (U64 - 1)) % U64
  if c = 0 ∧ g.stopped.isSome then { g with count := c, stopped := some true }
  else { g with count := c }

/-- `gate::check`: throws `gate_closed_exception` exactly when `_stopped`
is engaged; touches nothing. -/
def Gate.check (g : Gate) : Bool :=
  g.stopped.isSome

/-- `gate::close`: `assert(!_stopped)` — calling close twice takes the
fatal assertion path, modelled as `none`.  Otherwise engages `_stopped`,
resolves the drain promise immediately when `_count` is zero, then
invokes every registered `signal_target` (returned here as the list of
ids fired, in registration order) and returns the drain future. -/
def Gate.close (g : Gate) : Option (Gate × List Nat) :=
  if g.stopped.isSome then none
  else some ({ g with stopped := some (decide (g.count = 0)) }, g.to_signal)

/-- State after `n` consecutive `gate::leave` calls. -/
def Gate.leaveIter (g : Gate) : Nat → Gate
  | 0 => g
  | n + 1 => (Gate.leaveIter g n).leave

theorem Gate.leaveIter_drain (g : Gate) (hs : g.stopped = some false)
    (hcnt : g.count < U64) (hpos : 0 < g.count) :
    ∀ k, k ≤ g.count →
      Gate.leaveIter g k =
        if k < g.count then { g with count := g.count - k, stopped := some false }
        else { g with count := 0, stopped := some true } := by
  intro k
  induction k with
  | zero =>
    intro _
    rw [if_pos hpos]
    cases g
    simp_all [Gate.leaveIter]
  | succ n ih =>
    intro hn
    have hprev := ih (by omega)
    rw [if_pos (by omega)] at hprev
    show (Gate.leaveIter g n).leave = _
    rw [hprev]
    by_cases hend : n + 1 < g.count
    · rw [if_pos hend]
      have hc : (g.count - n + (U64 - 1)) % U64 = g.count - (n + 1) := by
        simp only [U64] at *
        omega
      simp only [Gate.leave, hc, Option.isSome_some, and_true]
      rw [if_neg (by omega)]
    · rw [if_neg hend]
      have hc : (g.count - n + (U64 - 1)) % U64 = 0 := by
        simp only [U64] at *
        omega
      simp only [Gate.leave, hc, Option.isSome_some, and_true]
      simp

/-- C4: `gate::close` with zero in-flight requests resolves the drain
promise synchronously before returning; with `N > 0` requests in flight
it returns an unresolved drain promise which stays unresolved through the
first `N - 1` `leave` calls, and the `N`-th `leave` resolves it. -/
theorem gate_close_drain (g : Gate) (hopen : g.stopped = none)
    (hcnt : g.count < U64) :
    ∃ g1 sigs, Gate.close g = some (g1, sigs)
      ∧ (g.count = 0 → g1.stopped = some true)
      ∧ (0 < g.count →
          g1.stopped = some false
          ∧ (∀ k, k < g.count → (Gate.leaveIter g1 k).stopped = some false)
          ∧ (Gate.leaveIter g1 g.count).stopped = some true) := by
  have hW : U64 = 18446744073709551616 := rfl
  refine ⟨{ g with stopped := some (decide (g.count = 0)) }, g.to_signal, ?_, ?_, ?_⟩
  · simp [Gate.close, hopen]
  · intro h0
    simp [h0]
  · intro hpos
    have hd : (decide (g.count = 0)) = false := by
      simp only [decide_eq_false_iff_not]
      omega
    rw [hd]
    refine ⟨rfl, ?_, ?_⟩
    · intro k hk
      rw [Gate.leaveIter_drain { g with stopped := some false } rfl hcnt hpos k
        (by exact Nat.le_of_lt hk), if_pos (by exact hk)]
    · rw [Gate.leaveIter_drain { g with stopped := some false } rfl hcnt hpos g.count
        (by exact Nat.le_refl _), if_neg (by exact Nat.lt_irrefl _)]

/-- Witness for C4 at a gate with two requests in flight. -/
theorem gate_close_drain_witness :
    ∃ g1 sigs,
      Gate.close { count := 2, stopped := none, to_signal := [] } = some (g1, sigs)
      ∧ ((2 : Nat) = 0 → g1.stopped = some true)
      ∧ (0 < (2 : Nat) →
          g1.stopped = some false
          ∧ (∀ k, k < 2 → (Gate.leaveIter g1 k).stopped = some false)
          ∧ (Gate.leaveIter g1 2).stopped = some true) :=
  gate_close_drain { count := 2, stopped := none, to_signal := [] } rfl (by decide)

/-- C7: `gate::enter` fails with `gate_closed_exception` exactly when
closing has been requested (`_stopped` engaged) and leaves the gate
untouched in that case, otherwise it increments the in-flight count by
one; `gate::check` fails exactly when closing has been requested and
changes nothing (it reads only `_stopped`). -/
theorem gate_enter_check (g : Gate) :
    ((Gate.enter g).1 = g.stopped.isSome)
    ∧ ((Gate.enter g).2 =
        if g.stopped.isSome then g
        else { g with count := (g.count + 1) % U64 })
    ∧ (g.count + 1 < U64 → g.stopped = none → (Gate.enter g).2.count = g.count + 1)
    ∧ (Gate.check g = g.stopped.isSome) := by
  refine ⟨?_, ?_, ?_, rfl⟩
  · by_cases h : g.stopped.isSome <;> simp [Gate.enter, h]
  · by_cases h : g.stopped.isSome <;> simp [Gate.enter, h]
  · intro hlt hopen
    simp [Gate.enter, hopen, Nat.mod_eq_of_lt hlt]

/-- Witness for C7 at an open gate with no requests in flight. -/
theorem gate_enter_check_witness :
    (Gate.enter { count := 0, stopped := none, to_signal := [] }).2.count = 0 + 1 :=
  (gate_enter_check { count := 0, stopped := none, to_signal := [] }).2.2.1
    (by decide) rfl

/-- `seastar::abort_source` state: `_subscriptions` holds the intrusive
list of live subscription handles (as ids, in registration order);
`none` models the disengaged optional after `request_abort()`. -/
structure AbortSource where
  subscriptions : Option (List Nat)

/-- `abort_source::subscribe`: constructs a `subscription` whose
constructor runs `as._subscriptions->push_back(*this)`.  When the source
has already fired, `_subscriptions` is disengaged and the dereference
violates the optional's precondition (fatal under debug assertions, not
a defined successful return): modelled as `none`. -/
def AbortSource.subscribe (as : AbortSource) (id : Nat) : Option AbortSource :=
  match as.subscriptions with
  | none => none
  | some l => some { subscriptions := some (l ++ [id]) }

/-- Destruction of a `subscription` handle: the `auto_unlink` base hook
removes the node from the owning list if it is still linked; after the
source fired (or after an earlier unlink) this is a no-op. -/
def AbortSource.destroySub (as : AbortSource) (id : Nat) : AbortSource :=
  { subscriptions := as.subscriptions.map (fun l => l.filter (fun x => x ≠ id)) }

/-- `abort_source::request_abort`: `_subscriptions->clear_and_dispose`
invokes each linked subscription's callback in list order, then the
optional is disengaged.  Returns the invocation order.  Calling it when
already fired dereferences the disengaged optional: modelled as `none`. -/
def AbortSource.request_abort (as : AbortSource) : Option (List Nat × AbortSource) :=
  match as.subscriptions with
  | none => none
  | some l => some (l, { subscriptions := none })

/-- `abort_source::abort_requested`. -/
def AbortSource.abort_requested (as : AbortSource) : Bool :=
  as.subscriptions.isNone

/-- A subscription-lifetime event: registering a new handle, or a
handle's destructor running. -/
inductive ASEvent where
  | sub (id : Nat)
  | destroySub (id : Nat)
deriving DecidableEq

/-- Runs a sequence of subscription-lifetime events against a source. -/
def runASEvents (as : AbortSource) : List ASEvent → Option AbortSource
  | [] => some as
  | ASEvent.sub id :: es => (as.subscribe id).bind (fun as1 => runASEvents as1 es)
  | ASEvent.destroySub id :: es => runASEvents (as.destroySub id) es

/-- Validity of an event sequence: each registered id is fresh (handles
are distinct objects) and a destructor only runs for a handle that was
registered earlier.  `seen` accumulates the registered ids. -/
def validASEvents (seen : List Nat) : List ASEvent → Bool
  | [] => true
  | ASEvent.sub id :: es => !seen.contains id && validASEvents (id :: seen) es
  | ASEvent.destroySub id :: es => seen.contains id && validASEvents seen es

/-- The ids registered by an event sequence, in registration order. -/
def subIds : List ASEvent → List Nat
  | [] => []
  | ASEvent.sub id :: es => id :: subIds es
  | ASEvent.destroySub _ :: es => subIds es

/-- The ids whose handles were destroyed during an event sequence. -/
def destroyedIds : List ASEvent → List Nat
  | [] => []
  | ASEvent.destroySub id :: es => id :: destroyedIds es
  | ASEvent.sub _ :: es => destroyedIds es

/-- Building and tearing down subscriptions on a live source, then
firing: the composed experiment behind C5. -/
def fireAfter (evs : List ASEvent) : Option (List Nat × AbortSource) :=
  (runASEvents { subscriptions := some [] } evs).bind AbortSource.request_abort

/-- The subscriber list as transformed by an event sequence. -/
def applyASEvents (l : List Nat) : List ASEvent → List Nat
  | [] => l
  | ASEvent.sub id :: es => applyASEvents (l ++ [id]) es
  | ASEvent.destroySub id :: es => applyASEvents (l.filter (fun x => x ≠ id)) es

theorem validASEvents_subIds_fresh :
    ∀ (evs : List ASEvent) (seen : List Nat), validASEvents seen evs = true →
      ∀ x, x ∈ seen → x ∉ subIds evs := by
  intro evs
  induction evs with
  | nil =>
    intro seen _ x _
    simp [subIds]
  | cons e es ih =>
    intro seen hv x hx
    cases e with
    | sub id =>
      simp only [validASEvents, Bool.and_eq_true, Bool.not_eq_true', List.contains,
        List.elem_eq_mem, decide_eq_false_iff_not] at hv
      have hne : x ≠ id := fun hxy => hv.1 (hxy ▸ hx)
      have hrest := ih (id :: seen) hv.2 x (List.mem_cons_of_mem _ hx)
      simp only [subIds, List.mem_cons, not_or]
      exact ⟨hne, hrest⟩
    | destroySub id =>
      simp only [validASEvents, Bool.and_eq_true] at hv
      exact ih seen hv.2 x hx

theorem validASEvents_subIds_nodup :
    ∀ (evs : List ASEvent) (seen : List Nat), validASEvents seen evs = true →
      (subIds evs).Nodup := by
  intro evs
  induction evs with
  | nil =>
    intro seen _
    simp [subIds]
  | cons e es ih =>
    intro seen hv
    cases e with
    | sub id =>
      simp only [validASEvents, Bool.and_eq_true] at hv
      simp only [subIds, List.nodup_cons]
      exact ⟨validASEvents_subIds_fresh es (id :: seen) hv.2 id (List.mem_cons_self _ _),
        ih (id :: seen) hv.2⟩
    | destroySub id =>
      simp only [validASEvents, Bool.and_eq_true] at hv
      exact ih seen hv.2

theorem applyASEvents_filter :
    ∀ (evs : List ASEvent) (seen l : List Nat), validASEvents seen evs = true →
      (∀ x, x ∈ l → x ∈ seen) →
      applyASEvents l evs =
        (l ++ subIds evs).filter (fun i => !(destroyedIds evs).contains i) := by
  intro evs
  induction evs with
  | nil =>
    intro seen l _ _
    simp [applyASEvents, subIds, destroyedIds]
  | cons e es ih =>
    intro seen l hv hsub
    cases e with
    | sub id =>
      simp only [validASEvents, Bool.and_eq_true, Bool.not_eq_true', List.contains,
        List.elem_eq_mem, decide_eq_false_iff_not] at hv
      have hsub1 : ∀ x, x ∈ l ++ [id] → x ∈ id :: seen := by
        intro x hx
        rcases List.mem_append.mp hx with h | h
        · exact List.mem_cons_of_mem _ (hsub x h)
        · simp only [List.mem_singleton] at h
          exact h ▸ List.mem_cons_self _ _
      have := ih (id :: seen) (l ++ [id]) hv.2 hsub1
      simp only [applyASEvents, subIds, destroyedIds, this, List.append_assoc,
        List.singleton_append]
    | destroySub id =>
      simp only [validASEvents, Bool.and_eq_true, List.contains, List.elem_eq_mem,
        decide_eq_true_eq] at hv
      have hsub1 : ∀ x, x ∈ l.filter (fun x => x ≠ id) → x ∈ seen :=
        fun x hx => hsub x (List.mem_of_mem_filter hx)
      have hfresh : id ∉ subIds es :=
        validASEvents_subIds_fresh es seen hv.2 id hv.1
      have := ih seen (l.filter (fun x => x ≠ id)) hv.2 hsub1
      simp only [applyASEvents, subIds, destroyedIds, this, List.filter_append]
      congr 1
      · rw [List.filter_filter]
        apply List.filter_congr
        intro x _
        simp only [List.contains, List.elem_eq_mem, List.mem_cons, decide_eq_true_eq]
        by_cases hxi : x = id
        · subst hxi
          simp
        · by_cases hxd : x ∈ destroyedIds es <;> simp [hxi, hxd]
      · apply List.filter_congr
        intro x hx
        have hxi : x ≠ id := fun hxy => hfresh (hxy ▸ hx)
        simp only [List.contains, List.elem_eq_mem, List.mem_cons]
        by_cases hxd : x ∈ destroyedIds es <;> simp [hxi, hxd]

theorem runASEvents_applied :
    ∀ (evs : List ASEvent) (l : List Nat),
      runASEvents { subscriptions := some l } evs =
        some { subscriptions := some (applyASEvents l evs) } := by
  intro evs
  induction evs with
  | nil => intro l; rfl
  | cons e es ih =>
    intro l
    cases e with
    | sub id =>
      simp only [runASEvents, AbortSource.subscribe, Option.bind_some]
      exact ih (l ++ [id])
    | destroySub id =>
      simp only [runASEvents, AbortSource.destroySub, Option.map_some]
      exact ih (l.filter (fun x => x ≠ id))

/-- C5: when `request_abort` fires, the callbacks invoked — synchronously,
inside the firing call — are exactly those whose subscriptions are alive
at that moment, in subscription order: the trace equals the registered
ids filtered by survival, contains no duplicates (each callback runs
exactly once), contains an id iff it was subscribed and its handle was
not destroyed, and afterwards no new callback can be registered. -/
theorem abort_source_fire_exactly_once (evs : List ASEvent)
    (hv : validASEvents [] evs = true) :
    fireAfter evs =
      some ((subIds evs).filter (fun i => !(destroyedIds evs).contains i),
        { subscriptions := none })
    ∧ ((subIds evs).filter (fun i => !(destroyedIds evs).contains i)).Nodup
    ∧ (∀ id, id ∈ (subIds evs).filter (fun i => !(destroyedIds evs).contains i)
        ↔ (id ∈ subIds evs ∧ id ∉ destroyedIds evs))
    ∧ (∀ id, AbortSource.subscribe { subscriptions := none } id = none) := by
  refine ⟨?_, ?_, ?_, fun _ => rfl⟩
  · have happ := runASEvents_applied evs []
    have hchar := applyASEvents_filter evs [] [] hv (by intro x hx; cases hx)
    simp only [fireAfter, happ, Option.bind_some, AbortSource.request_abort,
      hchar, List.nil_append]
    rfl
  · exact List.Nodup.filter _ (validASEvents_subIds_nodup evs [] hv)
  · intro id
    simp only [List.mem_filter, List.contains, List.elem_eq_mem, Bool.not_eq_true',
      decide_eq_false_iff_not]

/-- Witness for C5: three subscriptions, the second destroyed before
firing — the trace is exactly the surviving ids in order. -/
theorem abort_source_fire_exactly_once_witness :
    fireAfter [ASEvent.sub 1, ASEvent.sub 2, ASEvent.sub 3, ASEvent.destroySub 2] =
      some ((subIds [ASEvent.sub 1, ASEvent.sub 2, ASEvent.sub 3,
          ASEvent.destroySub 2]).filter
          (fun i => !(destroyedIds [ASEvent.sub 1, ASEvent.sub 2, ASEvent.sub 3,
            ASEvent.destroySub 2]).contains i),
        { subscriptions := none })
    ∧ (subIds [ASEvent.sub 1, ASEvent.sub 2, ASEvent.sub 3,
        ASEvent.destroySub 2]).filter
        (fun i => !(destroyedIds [ASEvent.sub 1, ASEvent.sub 2, ASEvent.sub 3,
          ASEvent.destroySub 2]).contains i) = [1, 3] :=
  ⟨(abort_source_fire_exactly_once _ (by decide)).1, by decide⟩

/-- C8: requesting `close()` on an already-closed gate trips the
`assert(!_stopped)` — the fatal assertion path, modelled as `none`, never
a normal successful return; and `subscribe()` on an already-fired
cancellation signal dereferences the disengaged `_subscriptions`
optional — a violated precondition (fatal under debug assertions),
likewise modelled as `none`, never a normal successful registration. -/
theorem close_twice_subscribe_after_fire (g : Gate) (hg : g.stopped.isSome = true)
    (as : AbortSource) (ha : as.subscriptions = none) (id : Nat) :
    Gate.close g = none ∧ as.subscribe id = none := by
  constructor
  · simp [Gate.close, hg]
  · simp [AbortSource.subscribe, ha]

/-- Witness for C8 at a closed gate and a fired abort source. -/
theorem close_twice_subscribe_after_fire_witness :
    Gate.close { count := 0, stopped := some true, to_signal := [] } = none
    ∧ AbortSource.subscribe { subscriptions := none } 0 = none :=
  close_twice_subscribe_after_fire
    { count := 0, stopped := some true, to_signal := [] } rfl
    { subscriptions := none } rfl 0

/-- State of one `sleep_abortable(dur, gate&)` operation (the sleeper):
whether the gate has closed, whether the armed timer is still pending
(armed and neither fired nor cancelled), whether the timer has fired, the
promise outcome (`none` unresolved, `some true` = `set_value`,
`some false` = `set_exception(sleep_aborted())`), and how many times the
promise was resolved. -/
structure SleepState where
  gate_closed : Bool
  timer_armed : Bool
  timer_fired : Bool
  result : Option Bool
  resolve_count : Nat
deriving DecidableEq

/-- The timer's callback in `sleep_abortable`:
`if (!g.is_closed()) done.set_value();`. -/
def timerCallback (st : SleepState) : SleepState :=
  if st.gate_closed then st
  else { st with result := some true, resolve_count := st.resolve_count + 1 }

/-- The close listener registered through `g.signal_on_close`:
`if (tmr.cancel()) done.set_exception(sleep_aborted());` — `timer::cancel`
succeeds exactly when the timer is still armed. -/
def closeListener (st : SleepState) : SleepState :=
  if st.timer_armed then
    { st with timer_armed := false, result := some false,
              resolve_count := st.resolve_count + 1 }
  else st

/-- External events against a sleeper, in the cooperative single-threaded
model: timer expiry (possible only while the timer is pending) and
`gate::close()` (possible only once; it runs the close listener
synchronously). -/
inductive SleepEvent where
  | timerFire
  | gateClose
deriving DecidableEq

def sleepStep (st : SleepState) : SleepEvent → Option SleepState
  | SleepEvent.timerFire =>
    if st.timer_armed then
      some (timerCallback { st with timer_armed := false, timer_fired := true })
    else none
  | SleepEvent.gateClose =>
    if st.gate_closed then none
    else some (closeListener { st with gate_closed := true })

def sleepRun (st : SleepState) : List SleepEvent → Option SleepState
  | [] => some st
  | e :: es => (sleepStep st e).bind (fun st1 => sleepRun st1 es)

/-- Entry of `sleep_abortable(dur, g)`: when `g.is_closed()` it returns
`make_exception_future(sleep_aborted())` at once, never arming the timer;
otherwise it constructs the sleeper, arming the timer and registering the
close listener. -/
def sleep_abortable_start (gate_closed : Bool) : SleepState :=
  if gate_closed then
    { gate_closed := true, timer_armed := false, timer_fired := false,
      result := some false, resolve_count := 1 }
  else
    { gate_closed := false, timer_armed := true, timer_fired := false,
      result := none, resolve_count := 0 }

/-- Reachability invariant of a sleeper built on an open gate: the promise
is resolved exactly once as soon as either the gate closed or the timer
fired — with the timer's success taking precedence — and the timer stays
pending exactly while neither has happened. -/
def SleepInv (st : SleepState) : Prop :=
  st.resolve_count = (if st.gate_closed || st.timer_fired then 1 else 0)
  ∧ st.result = (if st.timer_fired then some true
      else if st.gate_closed then some false else none)
  ∧ st.timer_armed = !(st.gate_closed || st.timer_fired)

theorem sleepStep_inv (st st' : SleepState) (e : SleepEvent)
    (hinv : SleepInv st) (hstep : sleepStep st e = some st') :
    SleepInv st'
    ∧ st'.gate_closed = (st.gate_closed || decide (e = SleepEvent.gateClose))
    ∧ st'.timer_fired = (st.timer_fired || decide (e = SleepEvent.timerFire)) := by
  obtain ⟨hcnt, hres, harm⟩ := hinv
  cases e with
  | timerFire =>
    simp only [sleepStep] at hstep
    by_cases ha : st.timer_armed
    · rw [if_pos ha] at hstep
      have hgc : st.gate_closed = false := by
        rw [ha] at harm
        cases hg : st.gate_closed <;> simp [hg] at harm ⊢
      injection hstep with hstep
      subst hstep
      simp_all [SleepInv, timerCallback, hgc]
    · rw [if_neg ha] at hstep
      cases hstep
  | gateClose =>
    simp only [sleepStep] at hstep
    by_cases hg : st.gate_closed
    · rw [if_pos hg] at hstep
      cases hstep
    · rw [if_neg hg] at hstep
      injection hstep with hstep
      subst hstep
      by_cases hf : st.timer_fired
      · have ha : st.timer_armed = false := by simp [harm, hf]
        simp_all [SleepInv, closeListener, ha]
      · have ha : st.timer_armed = true := by simp [harm, hf, hg]
        simp_all [SleepInv, closeListener, ha]

theorem sleepRun_inv :
    ∀ (evs : List SleepEvent) (st st' : SleepState), SleepInv st →
      sleepRun st evs = some st' →
      SleepInv st'
      ∧ st'.gate_closed = (st.gate_closed || evs.contains SleepEvent.gateClose)
      ∧ st'.timer_fired = (st.timer_fired || evs.contains SleepEvent.timerFire) := by
  intro evs
  induction evs with
  | nil =>
    intro st st' hinv hrun
    injection hrun with hrun
    subst hrun
    simp [hinv]
  | cons e es ih =>
    intro st st' hinv hrun
    simp only [sleepRun] at hrun
    cases hstep : sleepStep st e with
    | none => rw [hstep] at hrun; cases hrun
    | some st1 =>
      rw [hstep, Option.some_bind] at hrun
      obtain ⟨hinv1, hgc1, htf1⟩ := sleepStep_inv st st1 e hinv hstep
      obtain ⟨hinv', hgc', htf'⟩ := ih st1 st' hinv1 hrun
      refine ⟨hinv', ?_, ?_⟩ <;>
        cases e <;>
          simp_all [List.contains, Bool.or_assoc, Bool.or_comm]

/-- C6: an operation subscribed to the barrier's close signal — the
`sleep_abortable` timed wait — resolves its result exactly once under
every ordering of timer expiry relative to `close()`.  Started against an
already-closed barrier it resolves immediately with the wait-aborted
failure, never arming the timer; started against an open barrier, every
admissible event sequence containing the close resolves the promise
exactly once, with the timer's success standing when the timer fired
first and the wait-aborted failure otherwise. -/
theorem sleep_abortable_exactly_once :
    ((sleep_abortable_start true).result = some false
      ∧ (sleep_abortable_start true).resolve_count = 1
      ∧ (sleep_abortable_start true).timer_armed = false)
    ∧ ∀ (evs : List SleepEvent) (st : SleepState),
        sleepRun (sleep_abortable_start false) evs = some st →
        evs.contains SleepEvent.gateClose = true →
        st.resolve_count = 1
        ∧ st.result = some (evs.contains SleepEvent.timerFire) := by
  refine ⟨⟨rfl, rfl, rfl⟩, ?_⟩
  intro evs st hrun hclose
  have hinv0 : SleepInv (sleep_abortable_start false) := by
    refine ⟨rfl, rfl, rfl⟩
  obtain ⟨⟨hcnt, hres, _⟩, hgc, htf⟩ := sleepRun_inv evs _ st hinv0 hrun
  have hmem : SleepEvent.gateClose ∈ evs := by
    simpa [List.contains, List.elem_eq_mem] using hclose
  have hgc' : st.gate_closed = true := by
    simp [sleep_abortable_start] at hgc
    simp [hgc, hmem]
  constructor
  · rw [hcnt, hgc']
    simp
  · rw [hres]
    have htf' : st.timer_fired = evs.contains SleepEvent.timerFire := by
      simp [sleep_abortable_start] at htf
      simp [htf]
    rw [htf']
    cases hc : evs.contains SleepEvent.timerFire <;> simp [hgc']

/-- Witness for C6: the barrier closes before the timer fires; the wait
resolves exactly once, with the wait-aborted failure. -/
theorem sleep_abortable_exactly_once_witness :
    sleepRun (sleep_abortable_start false) [SleepEvent.gateClose] =
      some { gate_closed := true, timer_armed := false, timer_fired := false,
             result := some false, resolve_count := 1 }
    ∧ ({ gate_closed := true, timer_armed := false, timer_fired := false,
         result := some false, resolve_count := 1 } : SleepState).resolve_count = 1
    ∧ ({ gate_closed := true, timer_armed := false, timer_fired := false,
         result := some false, resolve_count := 1 } : SleepState).result =
        some ([SleepEvent.gateClose].contains SleepEvent.timerFire) := by
  refine ⟨rfl, ?_, ?_⟩
  · exact (sleep_abortable_exactly_once.2 [SleepEvent.gateClose] _ rfl (by decide)).1
  · exact (sleep_abortable_exactly_once.2 [SleepEvent.gateClose] _ rfl (by decide)).2

end Seastar
